import Mathlib

/-!
Verification development for the repair-invoice batch pipeline
(`src/modules/validator.py`, `src/modules/ai_extractor.py`,
`src/modules/pipeline.py`, `src/modules/db.py`, `src/config.py`).

Python dict records are embedded as finite maps `String → Option Value`;
machine floats are embedded as exact rationals `ℚ`; calls that can raise
(`float(...)`, `strptime`, DB inserts, file moves) are embedded as values of
`Except`/`Option` types, with environmental failures (DB/filesystem errors)
supplied by explicit oracles.  The processing-log write (`log_processing`)
swallows its own DB errors; it is modelled as an append that succeeds, i.e.
the store backing the log is assumed healthy.
-/

namespace RepairBot

/-! ### Calendar dates (model of `datetime.date`) -/

structure PyDate where
  year : Nat
  month : Nat
  day : Nat
deriving DecidableEq

def isLeap (y : Nat) : Bool :=
  (y % 4 == 0 && y % 100 != 0) || y % 400 == 0

def daysInMonth (y m : Nat) : Nat :=
  if m = 2 then (if isLeap y then 29 else 28)
  else if m = 4 ∨ m = 6 ∨ m = 9 ∨ m = 11 then 30
  else 31

/-- Days since 0000-03-01 (Gregorian, proleptic); standard civil-days count. -/
def civilDays (dt : PyDate) : Nat :=
  let y := if dt.month ≤ 2 then dt.year - 1 else dt.year
  let era := y / 400
  let yoe := y % 400
  let mp := (dt.month + 9) % 12
  let doy := (153 * mp + 2) / 5 + dt.day - 1
  let doe := yoe * 365 + yoe / 4 - yoe / 100 + doy
  era * 146097 + doe

/-- ISO weekday, 1 = Monday .. 7 = Sunday (model of `date.isoweekday`). -/
def isoWeekday (dt : PyDate) : Nat :=
  (civilDays dt + 2) % 7 + 1

def dayOfYear (dt : PyDate) : Nat :=
  (List.range (dt.month - 1)).foldl (fun a i => a + daysInMonth dt.year (i + 1)) 0 + dt.day

def isoLongYear (y : Nat) : Bool :=
  let jan1 := isoWeekday ⟨y, 1, 1⟩
  jan1 == 4 || (isLeap y && jan1 == 3)

/-- ISO week number (model of `date.isocalendar()[1]`). -/
def isoWeek (dt : PyDate) : Nat :=
  let w := (dayOfYear dt + 10 - isoWeekday dt) / 7
  if w = 0 then (if isoLongYear (dt.year - 1) then 53 else 52)
  else if w = 53 ∧ ¬ isoLongYear dt.year then 1
  else w

/-- `dt > today` on dates, lexicographic on (year, month, day). -/
def dateAfter (dt today : PyDate) : Bool :=
  decide (today.year < dt.year ∨
    (today.year = dt.year ∧ (today.month < dt.month ∨
      (today.month = dt.month ∧ today.day < dt.day))))

/-! ### Python values and dict records -/

/-- The dynamic values that can appear in an extracted invoice record.
JSON containers/None are outside the modelled range (the extraction schema
only produces strings and numbers; derived fields add dates and booleans). -/
inductive Value where
  | str (s : String)
  | num (q : ℚ)
  | bool (b : Bool)
  | date (d : PyDate)
deriving DecidableEq

/-- A Python dict used as a record: a finite map from field names to values. -/
abbrev Record : Type := String → Option Value

def Record.set (R : Record) (k : String) (v : Value) : Record :=
  fun k' => if k' = k then some v else R k'

def Record.getD (R : Record) (k : String) (d : Value) : Value :=
  (R k).getD d

def mkRecord (l : List (String × Value)) : Record :=
  fun k => (l.find? (fun p => p.1 == k)).map (fun p => p.2)

def allDigitsL (cs : List Char) : Bool :=
  cs.all Char.isDigit

def digitsToNat (cs : List Char) : Nat :=
  cs.foldl (fun a c => a * 10 + (c.toNat - 48)) 0

/-- `s.split(".")` for the one-character separator `'.'` (structural model
of `String.splitOn`, kept kernel-evaluable). -/
def splitDots : List Char → List (List Char)
  | [] => [[]]
  | c :: rest =>
      if c = '.' then [] :: splitDots rest
      else
        match splitDots rest with
        | h :: t => (c :: h) :: t
        | [] => [[c]]

/-- Model of Python `float(string)` for plain decimal literals (leading and
trailing whitespace, optional sign, digits, at most one dot);
exponents/inf/nan are not modelled. -/
def parsePyFloat (s : String) : Option ℚ :=
  let t := ((s.toList.dropWhile Char.isWhitespace).reverse.dropWhile Char.isWhitespace).reverse
  let sgn : Int := if t.take 1 = ['-'] then -1 else 1
  let body := if t.take 1 = ['-'] ∨ t.take 1 = ['+'] then t.drop 1 else t
  match splitDots body with
  | [a] => if a ≠ [] ∧ allDigitsL a then some (mkRat (sgn * digitsToNat a) 1) else none
  | [a, b] =>
      if a ++ b ≠ [] ∧ allDigitsL a ∧ allDigitsL b then
        some (mkRat (sgn * (digitsToNat a * 10 ^ b.length + digitsToNat b)) (10 ^ b.length))
      else none
  | _ => none

/-- Outcome of Python `float(value)`: a number, a `ValueError`
(unparseable string) or a `TypeError` (unsupported type). -/
inductive FloatRes where
  | ok (q : ℚ)
  | valueError
  | typeError
deriving DecidableEq

def pyFloat : Value → FloatRes
  | .num q => .ok q
  | .bool b => .ok (if b then 1 else 0)
  | .str s =>
      match parsePyFloat s with
      | some q => .ok q
      | none => .valueError
  | .date _ => .typeError

/-- Coercion used by Python `value < float_literal`: numbers and bools
compare; strings/dates raise `TypeError` (modelled as `none`). -/
def Value.cmpFloat : Value → Option ℚ
  | .num q => some q
  | .bool b => some (if b then 1 else 0)
  | _ => none

def qStr (q : ℚ) : String :=
  if q.den = 1 then toString q.num else toString q.num ++ "/" ++ toString q.den

def pad2 (n : Nat) : String :=
  if n < 10 then "0" ++ toString n else toString n

/-- Model of Python `str(value)` / f-string interpolation.  The numeric and
date cases are canonical stand-ins (Python float repr is not reproduced). -/
def Value.pyStr : Value → String
  | .str s => s
  | .num q => qStr q
  | .bool b => if b then "True" else "False"
  | .date d => toString d.year ++ "-" ++ pad2 d.month ++ "-" ++ pad2 d.day

def Value.truthy : Value → Bool
  | .str s => s != ""
  | .num q => q != 0
  | .bool b => b
  | .date _ => true

/-! ### Validator (`src/modules/validator.py`) -/

def REQUIRED_FIELDS : List String :=
  ["invoice_date", "truck", "total_price", "invoice_nr", "seller", "buyer", "kategorie", "confidence"]

def TRUCK_ALTS : List String :=
  ["GR-OO", "HH-AG", "DE-FN", "WJQY", "OHAMX"]

def VALID_KATEGORIEN : List String :=
  ["Reparatur", "Ersatzteile", "TÜV/HU/AU", "Reifen",
   "Tanken", "Miete", "Wartung", "Versicherung", "Sonstiges"]

/-- Model of `_TRUCK_PATTERN` `^(GR-OO\d+|HH-AG\d+|DE-FN\d+|WJQY\d+|OHAMX\d+|)$`
(the trailing-newline corner of `$` is not modelled). -/
def truckMatch (s : String) : Bool :=
  s == "" || TRUCK_ALTS.any (fun p =>
    s.toList.take p.length == p.toList &&
    (s.toList.drop p.length).length ≥ 1 && allDigitsL (s.toList.drop p.length))

/-- Model of `_DATE_PATTERN` `^\d{2}\.\d{2}\.\d{4}$` (ASCII digits). -/
def dateFormatOk (s : String) : Bool :=
  match s.toList with
  | [a, b, c, d, e, f, g, h, i, j] =>
      a.isDigit && b.isDigit && c == '.' && d.isDigit && e.isDigit && f == '.' &&
      g.isDigit && h.isDigit && i.isDigit && j.isDigit
  | _ => false

/-- Model of `datetime.strptime(s, "%d.%m.%Y").date()`: 1-2 digit day and
month, 1-4 digit year, full match, then calendar validity (year ≥ 1). -/
def parseDateLoose (s : String) : Option PyDate :=
  match splitDots s.toList with
  | [ds, ms, ys] =>
      if ds ≠ [] ∧ ds.length ≤ 2 ∧ allDigitsL ds ∧
         ms ≠ [] ∧ ms.length ≤ 2 ∧ allDigitsL ms ∧
         ys ≠ [] ∧ ys.length ≤ 4 ∧ allDigitsL ys then
        let d := digitsToNat ds
        let m := digitsToNat ms
        let y := digitsToNat ys
        if 1 ≤ y ∧ 1 ≤ m ∧ m ≤ 12 ∧ 1 ≤ d ∧ d ≤ daysInMonth y m then
          some ⟨y, m, d⟩
        else none
      else none
  | _ => none

def katValid (v : Value) : Bool :=
  match v with
  | .str s => VALID_KATEGORIEN.contains s
  | _ => false

/-- Level-2 date-format error (line 43). -/
def dateErr (s : String) : List String :=
  if dateFormatOk s then [] else ["bad date format: " ++ s]

/-- Level-2 truck-format error (lines 46-48). -/
def truckErr (s : String) : List String :=
  if s ≠ "" ∧ ¬ truckMatch s then ["bad truck format: " ++ s] else []

/-- Level-2 price coercion error (lines 50-54). -/
def priceErr (v : Value) : List String :=
  match pyFloat v with
  | .ok _ => []
  | _ => ["total_price not numeric: " ++ v.pyStr]

/-- Level-2 category error (lines 56-57): `record.get("kategorie")` must be
truthy and outside the fixed set to err. -/
def katErr (vOpt : Option Value) : List String :=
  match vOpt with
  | some v => if v.truthy ∧ ¬ katValid v then ["unknown kategorie: " ++ v.pyStr] else []
  | none => []

/-- Level-3 date-logic errors (lines 60-66): only run when the format
pattern matched; `strptime` failure gives "invalid date value". -/
def logicDateErr (s : String) (today : PyDate) : List String :=
  if dateFormatOk s then
    match parseDateLoose s with
    | some dt => if dateAfter dt today then ["date in future: " ++ s] else []
    | none => ["invalid date value: " ++ s]
  else []

/-- Level-3 zero-price error (lines 68-69). -/
def zeroErr (v : Value) : List String :=
  match pyFloat v with
  | .ok q => if q = 0 then ["total_price is zero"] else []
  | _ => []

/-- Model of `validator.validate` (the wall-clock `date.today()` is passed
explicitly as `today`).  Level 1 short-circuits; the remaining levels
accumulate errors in source order. -/
def validate (R : Record) (today : PyDate) : Bool × List String :=
  let missing := REQUIRED_FIELDS.filter (fun f => (R f).isNone)
  if missing ≠ [] then
    (false, missing.map (fun f => "missing field: " ++ f))
  else
    let dateStr := (R.getD "invoice_date" (.str "")).pyStr
    let truck := (R.getD "truck" (.str "")).pyStr
    let priceV := R.getD "total_price" (.str "")
    let errs := dateErr dateStr ++ truckErr truck ++ priceErr priceV ++
      katErr (R "kategorie") ++ logicDateErr dateStr today ++ zeroErr priceV
    (errs.isEmpty, errs)

def DERIVED_FIELDS : List String :=
  ["invoice_year", "invoice_month", "invoice_week", "invoice_date_parsed", "is_gutschrift"]

/-- Model of `validator.enrich`.  `.error` models an uncaught `TypeError`
(`strptime` on a non-string, or `float()` on an unsupported type); a
`ValueError` from `strptime`/`float` is caught by the source's
`except ValueError: pass`, leaving the record as enriched so far. -/
def enrich (R : Record) : Except String Record :=
  match R.getD "invoice_date" (.str "") with
  | .str ds =>
      match parseDateLoose ds with
      | none => .ok R
      | some dt =>
          let R4 := (((R.set "invoice_year" (.num dt.year)).set
            "invoice_month" (.num dt.month)).set
            "invoice_week" (.num (isoWeek dt))).set
            "invoice_date_parsed" (.date dt)
          match pyFloat (R4.getD "total_price" (.num 0)) with
          | .ok q => .ok (R4.set "is_gutschrift" (.bool (decide (q < 0))))
          | .valueError => .ok R4
          | .typeError => .error "TypeError: float() argument"
  | _ => .error "TypeError: strptime() argument 1 must be str"

/-! ### Configuration (`src/config.py`) -/

def MODEL_PRIMARY : String := "gpt-4o-mini"
def MODEL_FALLBACK : String := "gpt-4o"
/-- `CONFIDENCE_AUTO = 0.8` (written as a normalized rational so that the
kernel can evaluate comparisons against it). -/
def CONFIDENCE_AUTO : ℚ := mkRat 8 10

/-- `CONFIDENCE_REVIEW = 0.5`. -/
def CONFIDENCE_REVIEW : ℚ := mkRat 5 10

/-! ### Extraction client (`src/modules/ai_extractor.py`) -/

structure PDFContent where
  filename : String
  total_pages : Nat
  text : String
  is_scan : Bool
  page_images_b64 : List String := []

structure ExtractionResult where
  invoices : List Record := []
  model_used : String := ""
  tokens_input : Nat := 0
  tokens_output : Nat := 0
  cost_usd : ℚ := 0
  duration_ms : Nat := 0
  error : Option String := none

/-- Model of the generator condition
`all(inv.get("confidence", 0) < CONFIDENCE_AUTO for inv in result.invoices)`:
short-circuits left to right; `none` models a `TypeError` raised by
comparing a non-numeric confidence with the float threshold. -/
def allBelowAuto : List Record → Option Bool
  | [] => some true
  | inv :: rest =>
      match ((inv "confidence").getD (.num 0)).cmpFloat with
      | none => none
      | some q => if q < CONFIDENCE_AUTO then allBelowAuto rest else some false

/-- Model of the fallback guard in `extract` (lines 136-141), including the
Python evaluation/short-circuit order.  `none` models an uncaught
`TypeError` from the confidence comparison. -/
def fallbackCondition (c : PDFContent) (res : ExtractionResult) : Option Bool :=
  if c.is_scan then
    if res.invoices.isEmpty then some false
    else
      match allBelowAuto res.invoices with
      | none => none
      | some b => some (b && (MODEL_FALLBACK != MODEL_PRIMARY))
  else some false

/-- Model of `ai_extractor.extract`.  The two `_try_model` calls are external
service calls supplied as oracles `primary` and `fb`; `_try_model` itself
catches every exception, so each oracle is a plain `ExtractionResult`.
Returns the final outcome plus whether the fallback call was issued;
`.error` models the uncaught `TypeError` from the fallback guard.
Wall-clock `duration_ms` is not modelled. -/
def extract (c : PDFContent) (primary fb : ExtractionResult) :
    Except String (ExtractionResult × Bool) :=
  match fallbackCondition c primary with
  | none => .error "TypeError: unsupported comparison"
  | some false => .ok (primary, false)
  | some true => .ok ((if fb.error = none then fb else primary), true)

/-! ### Persistence gateway (`src/modules/db.py`) -/

/-- Persisted rows of `repair.invoices` (each row keeps the whole record). -/
abbrev Store : Type := List Record

/-- The uniqueness key of `repair.invoices`: `(invoice_nr, seller,
invoice_date)`, where the `invoice_date` column is bound to the record's
`invoice_date_parsed` value (see `_INSERT_INVOICE`). -/
def dupKey (R : Record) : Option Value × Option Value × Option Value :=
  (R "invoice_nr", R "seller", R "invoice_date_parsed")

/-- Model of `db.insert_invoice` / `INSERT ... ON CONFLICT DO NOTHING
RETURNING id`: on a key conflict nothing is inserted and no id is returned;
otherwise the row is appended and its id (row index) returned. -/
def insertInvoice (store : Store) (R : Record) : Option Nat × Store :=
  if store.any (fun r => decide (dupKey r = dupKey R)) then (none, store)
  else (some store.length, store ++ [R])

/-! ### Per-document pipeline (`src/modules/pipeline.py`, `_process_single`) -/

structure Detail where
  filename : String
  status : String
  records : List Record := []
  cost : ℚ := 0
  error : Option String := none
  model : Option String := none
  tokens_in : Option Nat := none
  tokens_out : Option Nat := none

/-- The processing log (`repair.processing_log`): one appended entry per
`_log_to_db` call, carrying the detail snapshot at logging time. -/
abbrev Log : Type := List Detail

/-- Environmental failure oracles for the external calls inside
`_process_single`: `some msg` means the call raises with message `msg`. -/
structure Oracles where
  moveManualFail : Option String := none
  moveCheckedFail : Option String := none
  insertFail : Nat → Option String := fun _ => none

/-- Outcome of the validation/enrichment loop (lines 158-190). -/
inductive LoopOut where
  | manualStop (msg : String)
  | exc (msg : String)
  | done (recs : List Record) (hasLow : Bool)

/-- The per-invoice loop of `_process_single` (lines 162-190): validate,
enrich, attach metadata, gate on confidence.  `exc` models an uncaught
exception (a `TypeError` from `enrich`, or `float(confidence)` raising). -/
def valLoop (today : PyDate) (fn modelName : String) (tok : Nat) (costPer : ℚ) :
    List Record → List Record → Bool → LoopOut
  | [], acc, hasLow => .done acc hasLow
  | inv :: rest, acc, hasLow =>
      let v := validate inv today
      if v.1 = false then
        .manualStop ("Validation: " ++ String.intercalate "; " v.2)
      else
        match enrich inv with
        | .error m => .exc m
        | .ok inv1 =>
            let inv2 := ((((inv1.set "pdf_filename" (.str fn)).set
              "ai_model" (.str modelName)).set
              "prompt_version" (.str "v1")).set
              "tokens_used" (.num tok)).set
              "cost_usd" (.num costPer)
            match pyFloat (inv2.getD "confidence" (.num 0)) with
            | .typeError => .exc "TypeError: float() argument"
            | .valueError => .exc "ValueError: could not convert string to float"
            | .ok conf =>
                if conf < CONFIDENCE_REVIEW then
                  -- the source formats the number with :.2f; the exact digits
                  -- of the message are not load-bearing and are not reproduced
                  .manualStop ("Low confidence: " ++ qStr conf)
                else
                  let isRev := decide (conf < CONFIDENCE_AUTO)
                  let inv3 := inv2.set "is_review" (.bool isRev)
                  valLoop today fn modelName tok costPer rest (acc ++ [inv3]) (hasLow || isRev)

/-- The insert loop (lines 193-196): `insert_invoice` may raise (oracle,
indexed by call number); a raising call is rolled back, earlier inserts
stay committed.  Returns the store plus the raised message, if any. -/
def insertLoop (fails : Nat → Option String) :
    Nat → List Record → Store → Store × Option String
  | _, [], s => (s, none)
  | i, r :: rs, s =>
      match fails i with
      | some m => (s, some m)
      | none => insertLoop fails (i + 1) rs (insertInvoice s r).2

/-- The `except Exception` handler (lines 208-216): status becomes
`"error"`, the file move is attempted with failures swallowed, and one log
entry is written. -/
def exceptBranch (d : Detail) (e : String) (store : Store) (log : Log) :
    Detail × Store × Log :=
  let d' := { d with status := "error", error := some e }
  (d', store, log ++ [d'])

/-- A manual-exit point (status/error already set on `d`): `move_to_manual`
then `_log_to_db`; if the move raises, control passes to the `except`
handler before any log entry is written. -/
def manualStopExit (moveFail : Option String) (d : Detail) (store : Store) (log : Log) :
    Detail × Store × Log :=
  match moveFail with
  | some m => exceptBranch d m store log
  | none => (d, store, log ++ [d])

/-- Model of `_process_single`.  `content` is the result of the
`pdf_reader.read_pdf` call (`.error` = an exception escaping the read
stage); `ext` is the `ai_extractor.extract` result (`extract` catches its
own service errors).  Returns the detail plus the updated store and log. -/
def processSingle (ora : Oracles) (today : PyDate) (pdfName : String)
    (content : Except String PDFContent) (ext : ExtractionResult)
    (store : Store) (log : Log) : Detail × Store × Log :=
  let d0 : Detail := { filename := pdfName, status := "error" }
  match content with
  | .error e => exceptBranch d0 e store log
  | .ok c =>
    if c.total_pages = 0 then
      manualStopExit ora.moveManualFail
        { d0 with status := "manual", error := some "Cannot read PDF" } store log
    else
      let d1 : Detail :=
        { d0 with
          cost := ext.cost_usd
          model := some ext.model_used
          tokens_in := some ext.tokens_input
          tokens_out := some ext.tokens_output }
      match ext.error with
      | some err =>
          manualStopExit ora.moveManualFail
            { d1 with status := "manual", error := some err } store log
      | none =>
        if ext.invoices.isEmpty then
          manualStopExit ora.moveManualFail
            { d1 with status := "manual", error := some "AI returned no invoices" } store log
        else
          match valLoop today pdfName ext.model_used
              (ext.tokens_input + ext.tokens_output)
              (ext.cost_usd / ext.invoices.length) ext.invoices [] false with
          | .exc m => exceptBranch d1 m store log
          | .manualStop em =>
              manualStopExit ora.moveManualFail
                { d1 with status := "manual", error := some em } store log
          | .done recs hasLow =>
              match insertLoop ora.insertFail 0 recs store with
              | (store1, some m) => exceptBranch d1 m store1 log
              | (store1, none) =>
                match ora.moveCheckedFail with
                | some m => exceptBranch d1 m store1 log
                | none =>
                    let d2 : Detail :=
                      { d1 with
                        records := recs
                        status := if hasLow then "review" else "success" }
                    (d2, store1, log ++ [d2])

/-! ### Batch orchestrator (`process_batch`) -/

structure ProcessingResult where
  total_files : Nat := 0
  success : Nat := 0
  review : Nat := 0
  manual : Nat := 0
  errors : Nat := 0
  total_cost : ℚ := 0
  details : List Detail := []
  cost_limit_hit : Bool := false

/-- The per-document input bundle for one enumerated PDF: its read result,
extraction result and environmental oracles. -/
structure DocInput where
  name : String
  content : Except String PDFContent
  extraction : ExtractionResult
  ora : Oracles := {}

/-- One `process_one` step: run the document pipeline and fold its detail
into the batch counters (lines 79-104; the progress callback is a swallowed
side channel and is not modelled). -/
def batchStep (today : PyDate) (acc : ProcessingResult × Store × Log) (doc : DocInput) :
    ProcessingResult × Store × Log :=
  let (r, store, log) := acc
  let (d, store1, log1) :=
    processSingle doc.ora today doc.name doc.content doc.extraction store log
  let r1 := { r with details := r.details ++ [d], total_cost := r.total_cost + d.cost }
  let r2 :=
    if d.status = "success" then { r1 with success := r1.success + 1 }
    else if d.status = "review" then { r1 with review := r1.review + 1 }
    else if d.status = "manual" then { r1 with manual := r1.manual + 1 }
    else { r1 with errors := r1.errors + 1 }
  (r2, store1, log1)

/-- Model of `process_batch` (lines 57-115).  The bounded-concurrency
`asyncio.gather` fan-out is linearized to a sequential fold (document
completion order is not observed by the claims settled here); Excel report
generation and the progress sink are external collaborators and are not
modelled.  `todayCost` is the `db.get_today_cost` query result and `limit`
is `DAILY_COST_LIMIT_USD`. -/
def processBatch (today : PyDate) (limit todayCost : ℚ) (docs : List DocInput)
    (store : Store) (log : Log) : ProcessingResult × Store × Log :=
  let r0 : ProcessingResult := { total_files := docs.length }
  if docs.isEmpty then (r0, store, log)
  else if limit ≤ todayCost then ({ r0 with cost_limit_hit := true }, store, log)
  else docs.foldl (batchStep today) (r0, store, log)

/-! ### Concrete sample inputs (used by witnesses and counterexamples) -/

/-- A well-formed candidate record with the given invoice number and
confidence. -/
def sampleRec (nr : String) (conf : ℚ) : Record :=
  mkRecord [("invoice_date", .str "15.03.2024"), ("truck", .str ""),
    ("total_price", .num 100), ("invoice_nr", .str nr), ("seller", .str "S GmbH"),
    ("buyer", .str "B GmbH"), ("kategorie", .str ""), ("confidence", .num conf)]

def sampleToday : PyDate := ⟨2025, 1, 1⟩

def sampleContent : PDFContent :=
  { filename := "inv.pdf", total_pages := 1, text := "invoice text", is_scan := false }

def sampleExt (l : List Record) : ExtractionResult :=
  { invoices := l, model_used := "gpt-4o-mini", tokens_input := 10,
    tokens_output := 5, cost_usd := mkRat 1 10 }

/-! ### Helper lemmas on the pipeline pieces -/

theorem exceptBranch_loglen (d : Detail) (e : String) (store : Store) (log : Log) :
    ((exceptBranch d e store log).2.2).length = log.length + 1 := by
  simp [exceptBranch]

theorem manualStopExit_loglen (mf : Option String) (d : Detail) (store : Store) (log : Log) :
    ((manualStopExit mf d store log).2.2).length = log.length + 1 := by
  cases mf <;> simp [manualStopExit, exceptBranch]

theorem exceptBranch_status (d : Detail) (e : String) (store : Store) (log : Log) :
    (exceptBranch d e store log).1.status = "error" := rfl

/-! ### C3 and C5 -/

/-- C3: every run of `_process_single` writes exactly one processing-log
entry for its document, whatever terminal state the document reaches
(unreadable input, extraction error, no candidates, validation failure,
low confidence, success/review, or an unexpected exception). -/
theorem c3_one_log_per_document (ora : Oracles) (today : PyDate) (name : String)
    (content : Except String PDFContent) (ext : ExtractionResult)
    (store : Store) (log : Log) :
    ((processSingle ora today name content ext store log).2.2).length = log.length + 1 := by
  unfold processSingle
  cases content with
  | error e => exact exceptBranch_loglen _ _ _ _
  | ok c =>
    dsimp only []
    split
    · exact manualStopExit_loglen _ _ _ _
    · split
      · exact manualStopExit_loglen _ _ _ _
      · split
        · exact manualStopExit_loglen _ _ _ _
        · split
          · exact exceptBranch_loglen _ _ _ _
          · exact manualStopExit_loglen _ _ _ _
          · split
            · exact exceptBranch_loglen _ _ _ _
            · split
              · exact exceptBranch_loglen _ _ _ _
              · simp

/-- C5: every per-document run ends in a terminal detail whose status is
one of success / review / manual / error; exceptions from any stage are
absorbed at the document boundary (the model's failure oracles), so no
document run escapes into the batch fan-out. -/
theorem c5_terminal_status_total (ora : Oracles) (today : PyDate) (name : String)
    (content : Except String PDFContent) (ext : ExtractionResult)
    (store : Store) (log : Log) :
    (processSingle ora today name content ext store log).1.status ∈
      (["success", "review", "manual", "error"] : List String) := by
  unfold processSingle
  cases content with
  | error e => simp [exceptBranch]
  | ok c =>
    dsimp only []
    split
    · cases h : ora.moveManualFail <;> simp [manualStopExit, exceptBranch]
    · split
      · cases h : ora.moveManualFail <;> simp [manualStopExit, exceptBranch]
      · split
        · cases h : ora.moveManualFail <;> simp [manualStopExit, exceptBranch]
        · split
          · simp [exceptBranch]
          · cases h : ora.moveManualFail <;> simp [manualStopExit, exceptBranch]
          · split
            · simp [exceptBranch]
            · split
              · simp [exceptBranch]
              · split <;> simp

/-! ### C6 -/

/-- C6 counterexample: with an empty input folder, `process_batch` returns
before the spend check even when the period spend (5) is already at or
above the daily limit (1), so `cost_limit_hit` is `false` where the claim
requires `true`. -/
theorem c6_empty_folder_counterexample :
    (1 : ℚ) ≤ 5 ∧
    (processBatch sampleToday 1 5 [] [] []).1.cost_limit_hit = false := by
  refine ⟨by norm_num, rfl⟩

/-- C6 (amended): when at least one document is enumerated and the period
spend is at or above the limit, the batch is refused at the single
pre-flight check: `cost_limit_hit` is set, no document is processed, no
record is persisted and no log entry is written.  (With an empty folder
the run returns immediately and the spend check is skipped.) -/
theorem c6_budget_refusal (today : PyDate) (limit todayCost : ℚ) (docs : List DocInput)
    (store : Store) (log : Log) (hdocs : docs ≠ []) (hcost : limit ≤ todayCost) :
    (processBatch today limit todayCost docs store log).1.cost_limit_hit = true ∧
    (processBatch today limit todayCost docs store log).1.details = [] ∧
    (processBatch today limit todayCost docs store log).1.success = 0 ∧
    (processBatch today limit todayCost docs store log).1.review = 0 ∧
    (processBatch today limit todayCost docs store log).1.manual = 0 ∧
    (processBatch today limit todayCost docs store log).1.errors = 0 ∧
    (processBatch today limit todayCost docs store log).1.total_cost = 0 ∧
    (processBatch today limit todayCost docs store log).2.1 = store ∧
    (processBatch today limit todayCost docs store log).2.2 = log := by
  have h1 : docs.isEmpty = false := by
    cases docs with
    | nil => exact absurd rfl hdocs
    | cons a l => rfl
  unfold processBatch
  simp [h1, hcost]

/-- C6 witness: a concrete one-document batch with spend 5 ≥ limit 1 is
refused with the amended guarantees. -/
theorem c6_budget_refusal_wit :
    ([({ name := "inv.pdf", content := .ok sampleContent,
         extraction := sampleExt [sampleRec "A1" (mkRat 9 10)] } : DocInput)] ≠
        ([] : List DocInput)) ∧ (1 : ℚ) ≤ 5 ∧
    (processBatch sampleToday 1 5
      [{ name := "inv.pdf", content := .ok sampleContent,
         extraction := sampleExt [sampleRec "A1" (mkRat 9 10)] }] [] []).1.cost_limit_hit = true :=
  ⟨by simp, by norm_num,
    (c6_budget_refusal sampleToday 1 5
      [{ name := "inv.pdf", content := .ok sampleContent,
         extraction := sampleExt [sampleRec "A1" (mkRat 9 10)] }] [] []
      (by simp) (by norm_num)).1⟩

/-! ### C4 -/

/-- C4 counterexample: a document whose second insert raises ends with
status `"error"` while the first record is already persisted — an
`error` document with a nonzero persisted-record count. -/
theorem c4_error_persists_counterexample :
    (processSingle { insertFail := fun i => if i = 1 then some "db error" else none }
        sampleToday "inv.pdf" (.ok sampleContent)
        (sampleExt [sampleRec "A1" (mkRat 9 10), sampleRec "A2" (mkRat 9 10)]) [] []).1.status
      = "error" ∧
    (processSingle { insertFail := fun i => if i = 1 then some "db error" else none }
        sampleToday "inv.pdf" (.ok sampleContent)
        (sampleExt [sampleRec "A1" (mkRat 9 10), sampleRec "A2" (mkRat 9 10)]) [] []).2.1.length
      = 1 := by
  exact ⟨by decide, by decide⟩

/-- C4 (amended): a document whose final status is `"manual"` persists
zero records (the store is untouched); a final status of `"error"` does
not guarantee this — records inserted before a mid-persistence or routing
failure remain persisted. -/
theorem c4_manual_zero_persisted (ora : Oracles) (today : PyDate) (name : String)
    (content : Except String PDFContent) (ext : ExtractionResult)
    (store : Store) (log : Log) :
    (processSingle ora today name content ext store log).1.status = "manual" →
    (processSingle ora today name content ext store log).2.1 = store := by
  unfold processSingle
  cases content with
  | error e => intro h; simp [exceptBranch] at h
  | ok c =>
    dsimp only []
    split
    · cases ora.moveManualFail with
      | some m => intro h; simp [manualStopExit, exceptBranch] at h
      | none => intro _; rfl
    · split
      · cases ora.moveManualFail with
        | some m => intro h; simp [manualStopExit, exceptBranch] at h
        | none => intro _; rfl
      · split
        · cases ora.moveManualFail with
          | some m => intro h; simp [manualStopExit, exceptBranch] at h
          | none => intro _; rfl
        · split
          · intro h; simp [exceptBranch] at h
          · cases ora.moveManualFail with
            | some m => intro h; simp [manualStopExit, exceptBranch] at h
            | none => intro _; rfl
          · split
            · intro h; simp [exceptBranch] at h
            · split
              · intro h; simp [exceptBranch] at h
              · intro h
                split at h <;> simp at h

/-- C4 witness: a concrete unreadable (zero-page) document ends `"manual"`
and the store is unchanged. -/
theorem c4_manual_zero_persisted_wit :
    (processSingle {} sampleToday "inv.pdf"
        (.ok { sampleContent with total_pages := 0 }) (sampleExt []) [sampleRec "A0" 1]
        []).1.status = "manual" ∧
    (processSingle {} sampleToday "inv.pdf"
        (.ok { sampleContent with total_pages := 0 }) (sampleExt []) [sampleRec "A0" 1]
        []).2.1 = [sampleRec "A0" 1] :=
  ⟨rfl, c4_manual_zero_persisted {} sampleToday "inv.pdf"
    (.ok { sampleContent with total_pages := 0 }) (sampleExt []) [sampleRec "A0" 1] [] rfl⟩

/-! ### C7 -/

theorem insertLoop_snd_const (f : Nat → Option String) :
    ∀ (recs : List Record) (i : Nat) (s t : Store),
      (insertLoop f i recs s).2 = (insertLoop f i recs t).2 := by
  intro recs
  induction recs with
  | nil => intro i s t; rfl
  | cons r rs ih =>
      intro i s t
      simp only [insertLoop]
      cases f i with
      | some m => rfl
      | none => dsimp only []; exact ih (i + 1) _ _

/-- C7: inserting a record whose uniqueness key `(invoice_nr, seller,
invoice_date)` collides with a persisted row is a no-op reporting
"duplicate" (no id, store unchanged, no error), and the per-document
outcome (the `ProcessingDetail`) does not depend on the store contents at
all — in particular a duplicate never degrades the document's batch
outcome. -/
theorem c7_duplicate_noop :
    (∀ (store : Store) (rec : Record),
        (∃ r ∈ store, dupKey r = dupKey rec) → insertInvoice store rec = (none, store))
    ∧ ∀ (ora : Oracles) (today : PyDate) (name : String)
        (content : Except String PDFContent) (ext : ExtractionResult)
        (log : Log) (s t : Store),
        (processSingle ora today name content ext s log).1 =
          (processSingle ora today name content ext t log).1 := by
  constructor
  · rintro store rec ⟨r, hr, hk⟩
    unfold insertInvoice
    rw [if_pos]
    exact List.any_eq_true.mpr ⟨r, hr, decide_eq_true hk⟩
  · intro ora today name content ext log s t
    have hms : ∀ (mf : Option String) (d : Detail) (lg : Log),
        (manualStopExit mf d s lg).1 = (manualStopExit mf d t lg).1 := by
      intro mf d lg; cases mf <;> rfl
    unfold processSingle
    cases content with
    | error e => rfl
    | ok c =>
      dsimp only []
      by_cases hp : c.total_pages = 0
      · simp only [if_pos hp]; exact hms _ _ _
      · simp only [if_neg hp]
        cases herr : ext.error with
        | some err => dsimp only []; exact hms _ _ _
        | none =>
          dsimp only []
          by_cases he : ext.invoices.isEmpty
          · simp only [if_pos he]; exact hms _ _ _
          · simp only [if_neg he]
            cases hv : valLoop today name ext.model_used
                (ext.tokens_input + ext.tokens_output)
                (ext.cost_usd / ext.invoices.length) ext.invoices [] false with
            | exc m => rfl
            | manualStop em => dsimp only []; exact hms _ _ _
            | done recs hasLow =>
              dsimp only []
              have h := insertLoop_snd_const ora.insertFail recs 0 s t
              rcases h1 : insertLoop ora.insertFail 0 recs s with ⟨s1, e1⟩
              rcases h2 : insertLoop ora.insertFail 0 recs t with ⟨t1, e2⟩
              rw [h1, h2] at h
              dsimp only [] at h
              subst h
              cases e1 with
              | some m => rfl
              | none => cases ora.moveCheckedFail <;> rfl

/-- C7 witness: a concrete duplicate insert is a no-op, and the same
document processed against two different stores yields the same detail. -/
theorem c7_duplicate_noop_wit :
    insertInvoice [sampleRec "A1" (mkRat 9 10)] (sampleRec "A1" (mkRat 9 10)) =
      (none, [sampleRec "A1" (mkRat 9 10)]) ∧
    (processSingle {} sampleToday "inv.pdf" (.ok sampleContent)
        (sampleExt [sampleRec "A1" (mkRat 9 10)]) [] []).1 =
      (processSingle {} sampleToday "inv.pdf" (.ok sampleContent)
        (sampleExt [sampleRec "A1" (mkRat 9 10)]) [sampleRec "A1" (mkRat 9 10)] []).1 :=
  ⟨c7_duplicate_noop.1 [sampleRec "A1" (mkRat 9 10)] (sampleRec "A1" (mkRat 9 10))
      ⟨sampleRec "A1" (mkRat 9 10), by simp, rfl⟩,
    c7_duplicate_noop.2 {} sampleToday "inv.pdf" (.ok sampleContent)
      (sampleExt [sampleRec "A1" (mkRat 9 10)]) [] [] [sampleRec "A1" (mkRat 9 10)]⟩

/-! ### C8 -/

/-- A well-formed record with the `kategorie` field entirely absent. -/
def sampleNoKat : Record :=
  mkRecord [("invoice_date", .str "15.03.2024"), ("truck", .str ""),
    ("total_price", .num 100), ("invoice_nr", .str "A1"), ("seller", .str "S GmbH"),
    ("buyer", .str "B GmbH"), ("confidence", .num (mkRat 9 10))]

/-- C8 counterexample: a record with every required field except
`kategorie` present and well-formed is rejected by `validate` with a
missing-field schema error — the claim says an absent category is
permitted. -/
theorem c8_absent_category_counterexample :
    validate sampleNoKat sampleToday = (false, ["missing field: kategorie"]) := by
  decide

/-- C8 (amended): for a record whose other fields are present and
well-formed, `validate` accepts an empty category and rejects exactly the
non-empty values outside the fixed nine-value enumeration; a record with
the category field *absent* is rejected at the schema level with a
"missing field: kategorie" error (absent is not permitted). -/
theorem c8_category_validation (R : Record) (today : PyDate) :
    (∀ (k ds ts : String) (pv : Value) (dt : PyDate) (q : ℚ),
      (∀ f ∈ REQUIRED_FIELDS, (R f).isSome = true) →
      R "invoice_date" = some (.str ds) → dateFormatOk ds = true →
      parseDateLoose ds = some dt → dateAfter dt today = false →
      R "truck" = some (.str ts) → truckMatch ts = true →
      R "total_price" = some pv → pyFloat pv = .ok q → q ≠ 0 →
      R "kategorie" = some (.str k) →
      validate R today =
        (if k = "" ∨ k ∈ VALID_KATEGORIEN then (true, ([] : List String))
         else (false, ["unknown kategorie: " ++ k])))
    ∧ ((∀ f ∈ REQUIRED_FIELDS, f ≠ "kategorie" → (R f).isSome = true) →
       R "kategorie" = none →
       validate R today = (false, ["missing field: kategorie"])) := by
  constructor
  · intro k ds ts pv dt q hreq hds hfmt hparse hfut hts htm hpv hq hq0 hk
    have hmiss : REQUIRED_FIELDS.filter (fun f => (R f).isNone) = [] := by
      rw [List.filter_eq_nil_iff]
      intro f hf
      have h := hreq f hf
      cases hRf : R f with
      | none => rw [hRf] at h; simp at h
      | some v => simp [hRf]
    have hgd : R.getD "invoice_date" (.str "") = .str ds := by
      simp [Record.getD, hds]
    have hgt : R.getD "truck" (.str "") = .str ts := by
      simp [Record.getD, hts]
    have hgp : R.getD "total_price" (.str "") = pv := by
      simp [Record.getD, hpv]
    have e1 : dateErr ds = [] := by simp [dateErr, hfmt]
    have e2 : truckErr ts = [] := by simp [truckErr, htm]
    have e3 : priceErr pv = [] := by simp [priceErr, hq]
    have e5 : logicDateErr ds today = [] := by simp [logicDateErr, hfmt, hparse, hfut]
    have e6 : zeroErr pv = [] := by simp [zeroErr, hq, hq0]
    simp only [validate, hmiss, hgd, hgt, hgp, hk, Value.pyStr, e1, e2, e3, e5, e6,
      ne_eq, not_true_eq_false, if_false, List.nil_append, List.append_nil]
    by_cases hcase : k = "" ∨ k ∈ VALID_KATEGORIEN
    · rw [if_pos hcase]
      have hke : katErr (some (.str k)) = [] := by
        rcases hcase with h0 | hmem
        · simp [katErr, Value.truthy, h0]
        · simp [katErr, Value.truthy, katValid, List.contains, List.elem_iff, hmem]
      simp [hke]
    · rw [if_neg hcase]
      push_neg at hcase
      have hke : katErr (some (.str k)) = ["unknown kategorie: " ++ k] := by
        simp [katErr, Value.truthy, katValid, List.contains, List.elem_iff,
          hcase.1, hcase.2, Value.pyStr]
      simp [hke]
  · intro hreq hk
    have hmiss : REQUIRED_FIELDS.filter (fun f => (R f).isNone) = ["kategorie"] := by
      have h1 : ∀ f ∈ REQUIRED_FIELDS, f ≠ "kategorie" → (R f).isNone = false := by
        intro f hf hne
        have h := hreq f hf hne
        cases hRf : R f with
        | none => rw [hRf] at h; simp at h
        | some v => simp
      simp only [REQUIRED_FIELDS] at h1 ⊢
      simp only [List.filter]
      rw [h1 "invoice_date" (by simp) (by decide), h1 "truck" (by simp) (by decide),
        h1 "total_price" (by simp) (by decide), h1 "invoice_nr" (by simp) (by decide),
        h1 "seller" (by simp) (by decide), h1 "buyer" (by simp) (by decide),
        h1 "confidence" (by simp) (by decide), hk]
      rfl
    simp only [validate, hmiss]
    rfl

/-- C8 witness: the amended rules at concrete inputs — empty category
accepted, unknown category "Foo" rejected, absent category rejected. -/
theorem c8_category_validation_wit :
    validate (sampleRec "A1" (mkRat 9 10)) sampleToday = (true, []) ∧
    validate (fun f => if f = "kategorie" then some (.str "Foo")
                       else sampleRec "A1" (mkRat 9 10) f) sampleToday =
      (false, ["unknown kategorie: Foo"]) :=
  ⟨by
    have h := (c8_category_validation (sampleRec "A1" (mkRat 9 10)) sampleToday).1
      "" "15.03.2024" "" (.num 100) ⟨2024, 3, 15⟩ 100
      (by decide) rfl (by decide) (by decide) (by decide) rfl (by decide) rfl rfl
      (by decide) rfl
    simpa using h,
   by
    have h := (c8_category_validation
        (fun f => if f = "kategorie" then some (.str "Foo")
                  else sampleRec "A1" (mkRat 9 10) f) sampleToday).1
      "Foo" "15.03.2024" "" (.num 100) ⟨2024, 3, 15⟩ 100
      (by decide) rfl (by decide) (by decide) (by decide) rfl (by decide) rfl rfl
      (by decide) rfl
    simpa using h⟩

/-! ### C2 -/

theorem allBelowAuto_true_iff (l : List Record) :
    allBelowAuto l = some true ↔
      ∀ inv ∈ l, ∃ q,
        ((inv "confidence").getD (.num 0)).cmpFloat = some q ∧ q < CONFIDENCE_AUTO := by
  induction l with
  | nil => simp [allBelowAuto]
  | cons inv rest ih =>
      simp only [allBelowAuto]
      cases hc : ((inv "confidence").getD (.num 0)).cmpFloat with
      | none => simp [hc]
      | some q =>
          by_cases hq : q < CONFIDENCE_AUTO
          · simp [hq, ih, hc]
          · simp [hq, hc]

theorem fallbackCondition_true_iff (c : PDFContent) (primary : ExtractionResult) :
    fallbackCondition c primary = some true ↔
      (c.is_scan = true ∧ primary.invoices ≠ [] ∧
        allBelowAuto primary.invoices = some true) := by
  have hne : (MODEL_FALLBACK != MODEL_PRIMARY) = true := by decide
  unfold fallbackCondition
  by_cases hs : c.is_scan
  · simp only [hs, if_true]
    by_cases he : primary.invoices.isEmpty
    · have : primary.invoices = [] := by
        cases hl : primary.invoices with
        | nil => rfl
        | cons a l => rw [hl] at he; simp at he
      simp [he, this]
    · have hnil : primary.invoices ≠ [] := by
        intro h0
        rw [h0] at he
        simp at he
      simp only [he, if_false, Bool.false_eq_true]
      cases hab : allBelowAuto primary.invoices with
      | none => simp [hnil]
      | some b => simp [hne, hnil]
  · have : c.is_scan = false := by
      cases h : c.is_scan
      · rfl
      · exact absurd h hs
    simp [this]

/-- C2: the fallback model is issued a second call iff the document is a
scan, the primary outcome has at least one candidate, and every
candidate's confidence compares strictly below `CONFIDENCE_AUTO`; a
successful fallback outcome entirely replaces the primary outcome, a
failed one leaves the primary outcome in place. -/
theorem c2_fallback_policy (c : PDFContent) (primary fb res : ExtractionResult)
    (invoked : Bool) (hok : extract c primary fb = .ok (res, invoked)) :
    (invoked = true ↔ (c.is_scan = true ∧ primary.invoices ≠ [] ∧
      ∀ inv ∈ primary.invoices, ∃ q,
        ((inv "confidence").getD (.num 0)).cmpFloat = some q ∧ q < CONFIDENCE_AUTO))
    ∧ (invoked = true →
        ((fb.error = none → res = fb) ∧ (fb.error ≠ none → res = primary)))
    ∧ (invoked = false → res = primary) := by
  unfold extract at hok
  cases hfc : fallbackCondition c primary with
  | none => rw [hfc] at hok; exact absurd hok (by simp)
  | some b =>
    rw [hfc] at hok
    cases b with
    | false =>
        simp only [Except.ok.injEq, Prod.mk.injEq] at hok
        obtain ⟨hres, hinv⟩ := hok
        subst hres; subst hinv
        refine ⟨?_, by simp, fun _ => rfl⟩
        constructor
        · intro h; exact absurd h (by simp)
        · intro hrhs
          have : fallbackCondition c primary = some true :=
            (fallbackCondition_true_iff c primary).mpr
              ⟨hrhs.1, hrhs.2.1, (allBelowAuto_true_iff primary.invoices).mpr hrhs.2.2⟩
          rw [hfc] at this
          simp at this
    | true =>
        simp only [Except.ok.injEq, Prod.mk.injEq] at hok
        obtain ⟨hres, hinv⟩ := hok
        subst hinv
        have hcond := (fallbackCondition_true_iff c primary).mp hfc
        refine ⟨?_, ?_, by simp⟩
        · simp only [true_iff]
          exact ⟨hcond.1, hcond.2.1,
            (allBelowAuto_true_iff primary.invoices).mp hcond.2.2⟩
        · intro _
          constructor
          · intro hfbe
            rw [if_pos hfbe] at hres
            exact hres.symm
          · intro hfbe
            rw [if_neg hfbe] at hres
            exact hres.symm

/-- A one-page scanned document. -/
def scanContent : PDFContent :=
  { filename := "scan.pdf", total_pages := 1, text := "", is_scan := true,
    page_images_b64 := ["img0"] }

/-- A successful fallback-model outcome. -/
def fbResult : ExtractionResult :=
  { invoices := [sampleRec "A1" (mkRat 9 10)], model_used := "gpt-4o",
    tokens_input := 100, tokens_output := 50, cost_usd := mkRat 1 10 }

/-- C2 witness: a scan whose primary outcome has one candidate below the
auto threshold triggers the fallback, and the successful fallback outcome
replaces the primary one. -/
theorem c2_fallback_policy_wit :
    extract scanContent (sampleExt [sampleRec "A1" (mkRat 6 10)]) fbResult =
      .ok (fbResult, true) ∧
    (((true : Bool) = true ↔ (scanContent.is_scan = true ∧
        (sampleExt [sampleRec "A1" (mkRat 6 10)]).invoices ≠ [] ∧
        ∀ inv ∈ (sampleExt [sampleRec "A1" (mkRat 6 10)]).invoices, ∃ q,
          ((inv "confidence").getD (.num 0)).cmpFloat = some q ∧ q < CONFIDENCE_AUTO))
      ∧ ((true : Bool) = true →
          ((fbResult.error = none → fbResult = fbResult) ∧
           (fbResult.error ≠ none → fbResult = sampleExt [sampleRec "A1" (mkRat 6 10)])))
      ∧ ((true : Bool) = false → fbResult = sampleExt [sampleRec "A1" (mkRat 6 10)])) :=
  ⟨rfl, c2_fallback_policy scanContent (sampleExt [sampleRec "A1" (mkRat 6 10)])
    fbResult fbResult true rfl⟩

/-! ### C9 -/

theorem Record.set_self (R : Record) (k : String) (v : Value) :
    (R.set k v) k = some v := by
  simp [Record.set]

theorem Record.set_other (R : Record) (k k' : String) (v : Value) (h : k' ≠ k) :
    (R.set k v) k' = R k' := by
  simp [Record.set, h]

/-- C9: for a record with a string date field and a coercible price,
`enrich` succeeds, re-enriching the result reproduces it exactly
(idempotence), and `enrich` changes no field outside the five derived
fields (year, month, ISO week, parsed date, credit-note flag). -/
theorem c9_enrich_idempotent (R : Record) (ds : String)
    (hreq : REQUIRED_FIELDS.all (fun f => (R f).isSome) = true)
    (hdate : R "invoice_date" = some (.str ds))
    (hfmt : dateFormatOk ds = true)
    (hprice : ∃ q, pyFloat (R.getD "total_price" (.num 0)) = .ok q) :
    ∃ R', enrich R = .ok R' ∧ enrich R' = .ok R' ∧
      ∀ k, k ∉ DERIVED_FIELDS → R' k = R k := by
  obtain ⟨q, hq⟩ := hprice
  have hgd : R.getD "invoice_date" (.str "") = .str ds := by
    simp [Record.getD, hdate]
  cases hp : parseDateLoose ds with
  | none =>
      refine ⟨R, ?_, ?_, fun k _ => rfl⟩ <;>
        simp only [enrich, hgd, hp]
  | some dt =>
      have hR4p :
          ((((R.set "invoice_year" (.num dt.year)).set "invoice_month"
            (.num dt.month)).set "invoice_week" (.num (isoWeek dt))).set
            "invoice_date_parsed" (.date dt)).getD "total_price" (.num 0) =
          R.getD "total_price" (.num 0) := by
        simp [Record.getD, Record.set]
      refine ⟨((((R.set "invoice_year" (.num dt.year)).set "invoice_month"
        (.num dt.month)).set "invoice_week" (.num (isoWeek dt))).set
        "invoice_date_parsed" (.date dt)).set "is_gutschrift"
        (.bool (decide (q < 0))), ?_, ?_, ?_⟩
      · simp only [enrich, hgd, hp, hR4p, hq]
      · have h5d :
            (((((R.set "invoice_year" (.num dt.year)).set "invoice_month"
              (.num dt.month)).set "invoice_week" (.num (isoWeek dt))).set
              "invoice_date_parsed" (.date dt)).set "is_gutschrift"
              (.bool (decide (q < 0)))).getD "invoice_date" (.str "") = .str ds := by
          simp [Record.getD, Record.set, hdate]
        have h5p :
            (((((((((R.set "invoice_year" (.num dt.year)).set "invoice_month"
              (.num dt.month)).set "invoice_week" (.num (isoWeek dt))).set
              "invoice_date_parsed" (.date dt)).set "is_gutschrift"
              (.bool (decide (q < 0)))).set "invoice_year" (.num dt.year)).set
              "invoice_month" (.num dt.month)).set "invoice_week"
              (.num (isoWeek dt))).set "invoice_date_parsed" (.date dt)).getD
              "total_price" (.num 0) =
            R.getD "total_price" (.num 0) := by
          simp [Record.getD, Record.set]
        simp only [enrich, h5d, hp, h5p, hq]
        congr 1
        funext k
        by_cases h1 : k = "is_gutschrift"
        · subst h1; simp [Record.set]
        · by_cases h2 : k = "invoice_date_parsed"
          · subst h2; simp [Record.set]
          · by_cases h3 : k = "invoice_week"
            · subst h3; simp [Record.set]
            · by_cases h4 : k = "invoice_month"
              · subst h4; simp [Record.set]
              · by_cases h5 : k = "invoice_year"
                · subst h5; simp [Record.set]
                · simp [Record.set, h1, h2, h3, h4, h5]
      · intro k hk
        simp only [DERIVED_FIELDS, List.mem_cons, List.mem_singleton] at hk
        push_neg at hk
        obtain ⟨n1, n2, n3, n4, n5⟩ := hk
        simp [Record.set, n1, n2, n3, n4, n5]

/-- C9 witness: a concrete valid record is enriched, re-enriching is the
identity on the result, and non-derived fields are untouched. -/
theorem c9_enrich_idempotent_wit :
    REQUIRED_FIELDS.all (fun f => (sampleRec "A1" (mkRat 9 10) f).isSome) = true ∧
    sampleRec "A1" (mkRat 9 10) "invoice_date" = some (.str "15.03.2024") ∧
    dateFormatOk "15.03.2024" = true ∧
    (∃ q, pyFloat ((sampleRec "A1" (mkRat 9 10)).getD "total_price" (.num 0)) = .ok q) ∧
    (∃ R', enrich (sampleRec "A1" (mkRat 9 10)) = .ok R' ∧ enrich R' = .ok R' ∧
      ∀ k, k ∉ DERIVED_FIELDS → R' k = sampleRec "A1" (mkRat 9 10) k) :=
  ⟨by decide, rfl, by decide, ⟨100, rfl⟩,
    c9_enrich_idempotent (sampleRec "A1" (mkRat 9 10)) "15.03.2024"
      (by decide) rfl (by decide) ⟨100, rfl⟩⟩

/-! ### Inversion lemmas for `validate` -/

theorem dateErr_nil (s : String) (h : dateErr s = []) : dateFormatOk s = true := by
  unfold dateErr at h
  by_cases hf : dateFormatOk s = true
  · exact hf
  · rw [if_neg hf] at h; simp at h

theorem priceErr_nil (v : Value) (h : priceErr v = []) : ∃ q, pyFloat v = .ok q := by
  unfold priceErr at h
  cases hf : pyFloat v with
  | ok q => exact ⟨q, rfl⟩
  | valueError => rw [hf] at h; simp at h
  | typeError => rw [hf] at h; simp at h

theorem logicDateErr_nil (s : String) (today : PyDate) (hfmt : dateFormatOk s = true)
    (h : logicDateErr s today = []) : ∃ dt, parseDateLoose s = some dt := by
  unfold logicDateErr at h
  rw [if_pos hfmt] at h
  cases hp : parseDateLoose s with
  | some dt => exact ⟨dt, rfl⟩
  | none => rw [hp] at h; simp at h

theorem validate_true_parts (R : Record) (today : PyDate)
    (h : (validate R today).1 = true) :
    (∀ f ∈ REQUIRED_FIELDS, (R f).isSome = true) ∧
    dateFormatOk ((R.getD "invoice_date" (.str "")).pyStr) = true ∧
    (∃ dt, parseDateLoose ((R.getD "invoice_date" (.str "")).pyStr) = some dt) ∧
    (∃ q, pyFloat (R.getD "total_price" (.str "")) = .ok q) := by
  unfold validate at h
  by_cases hm : REQUIRED_FIELDS.filter (fun f => (R f).isNone) ≠ []
  · rw [if_pos hm] at h; simp at h
  · rw [if_neg hm] at h
    push_neg at hm
    have hpres : ∀ f ∈ REQUIRED_FIELDS, (R f).isSome = true := by
      intro f hf
      have hnn := List.filter_eq_nil_iff.mp hm f hf
      cases hRf : R f with
      | none => rw [hRf] at hnn; simp at hnn
      | some v => simp
    dsimp only at h
    rw [List.isEmpty_iff] at h
    simp only [List.append_eq_nil] at h
    obtain ⟨⟨⟨⟨⟨h1, h2⟩, h3⟩, h4⟩, h5⟩, h6⟩ := h
    have hfmt := dateErr_nil _ h1
    exact ⟨hpres, hfmt, logicDateErr_nil _ today hfmt h5, priceErr_nil _ h3⟩

/-! ### Enrichment of validated records -/

/-- A candidate is *good* when it passes validation, carries a string
date (so `strptime` cannot raise `TypeError`) and a float-coercible
confidence (so `float(confidence)` cannot raise). -/
def strDateB (inv : Record) : Bool :=
  match inv "invoice_date" with
  | some (.str _) => true
  | _ => false

def confOkB (inv : Record) : Bool :=
  match pyFloat ((inv "confidence").getD (.num 0)) with
  | .ok _ => true
  | _ => false

def GoodRec (today : PyDate) (inv : Record) : Prop :=
  (validate inv today).1 = true ∧ strDateB inv = true ∧ confOkB inv = true

instance (today : PyDate) (inv : Record) : Decidable (GoodRec today inv) :=
  inferInstanceAs (Decidable ((validate inv today).1 = true ∧
    strDateB inv = true ∧ confOkB inv = true))

/-- The confidence of a candidate as coerced by `float(...)` (0 when the
coercion is undefined; `GoodRec` candidates always coerce). -/
def confQ (inv : Record) : ℚ :=
  match pyFloat ((inv "confidence").getD (.num 0)) with
  | .ok q => q
  | _ => 0

theorem enrich_good (R : Record) (today : PyDate)
    (hval : (validate R today).1 = true) (hstr : strDateB R = true) :
    ∃ R', enrich R = .ok R' ∧ ∀ k, k ∉ DERIVED_FIELDS → R' k = R k := by
  obtain ⟨ds, hds⟩ : ∃ s, R "invoice_date" = some (.str s) := by
    unfold strDateB at hstr
    cases hv : R "invoice_date" with
    | none => rw [hv] at hstr; simp at hstr
    | some v =>
        cases v with
        | str s => exact ⟨s, rfl⟩
        | num q => rw [hv] at hstr; simp at hstr
        | bool b => rw [hv] at hstr; simp at hstr
        | date d => rw [hv] at hstr; simp at hstr
  have hgd : R.getD "invoice_date" (.str "") = .str ds := by
    simp [Record.getD, hds]
  obtain ⟨hpres, hfmt, ⟨dt, hdt⟩, ⟨q, hq⟩⟩ := validate_true_parts R today hval
  rw [hgd] at hdt
  simp only [Value.pyStr] at hdt
  obtain ⟨pv, hpv⟩ : ∃ v, R "total_price" = some v := by
    have := hpres "total_price" (by decide)
    cases hv : R "total_price" with
    | none => rw [hv] at this; simp at this
    | some v => exact ⟨v, rfl⟩
  have hq0 : pyFloat (R.getD "total_price" (.num 0)) = .ok q := by
    have : R.getD "total_price" (.num 0) = R.getD "total_price" (.str "") := by
      simp [Record.getD, hpv]
    rw [this]; exact hq
  have hR4p :
      ((((R.set "invoice_year" (.num dt.year)).set "invoice_month"
        (.num dt.month)).set "invoice_week" (.num (isoWeek dt))).set
        "invoice_date_parsed" (.date dt)).getD "total_price" (.num 0) =
      R.getD "total_price" (.num 0) := by
    simp [Record.getD, Record.set]
  refine ⟨((((R.set "invoice_year" (.num dt.year)).set "invoice_month"
      (.num dt.month)).set "invoice_week" (.num (isoWeek dt))).set
      "invoice_date_parsed" (.date dt)).set "is_gutschrift"
      (.bool (decide (q < 0))), ?_, ?_⟩
  · simp only [enrich, hgd, hdt, hR4p, hq0]
  · intro k hk
    simp only [DERIVED_FIELDS, List.mem_cons, List.mem_singleton] at hk
    push_neg at hk
    obtain ⟨n1, n2, n3, n4, n5⟩ := hk
    simp [Record.set, n1, n2, n3, n4, n5]

/-! ### The validation loop on good candidates -/

theorem valLoop_cons_good (today : PyDate) (fn mn : String) (tok : Nat) (cp : ℚ)
    (inv : Record) (rest acc : List Record) (hasLow : Bool)
    (hg : GoodRec today inv) :
    (confQ inv < CONFIDENCE_REVIEW →
      valLoop today fn mn tok cp (inv :: rest) acc hasLow =
        .manualStop ("Low confidence: " ++ qStr (confQ inv)))
    ∧ (¬ confQ inv < CONFIDENCE_REVIEW →
      ∃ inv3, valLoop today fn mn tok cp (inv :: rest) acc hasLow =
          valLoop today fn mn tok cp rest (acc ++ [inv3])
            (hasLow || decide (confQ inv < CONFIDENCE_AUTO))
        ∧ inv3 "cost_usd" = some (.num cp)) := by
  obtain ⟨hval, hstr, hcf⟩ := hg
  obtain ⟨R', henr, hframe⟩ := enrich_good inv today hval hstr
  obtain ⟨q, hq⟩ : ∃ q, pyFloat ((inv "confidence").getD (.num 0)) = .ok q := by
    unfold confOkB at hcf
    cases hf : pyFloat ((inv "confidence").getD (.num 0)) with
    | ok q => exact ⟨q, rfl⟩
    | valueError => rw [hf] at hcf; simp at hcf
    | typeError => rw [hf] at hcf; simp at hcf
  have hcq : confQ inv = q := by simp [confQ, hq]
  have hc2 :
      (((((R'.set "pdf_filename" (.str fn)).set "ai_model" (.str mn)).set
        "prompt_version" (.str "v1")).set "tokens_used" (.num tok)).set
        "cost_usd" (.num cp)).getD "confidence" (.num 0) =
      (inv "confidence").getD (.num 0) := by
    have hc1 : R' "confidence" = inv "confidence" := hframe _ (by decide)
    simp [Record.getD, Record.set, hc1]
  have hstep : valLoop today fn mn tok cp (inv :: rest) acc hasLow =
      (if q < CONFIDENCE_REVIEW then
        LoopOut.manualStop ("Low confidence: " ++ qStr q)
      else
        valLoop today fn mn tok cp rest
          (acc ++ [(((((R'.set "pdf_filename" (.str fn)).set "ai_model"
            (.str mn)).set "prompt_version" (.str "v1")).set "tokens_used"
            (.num tok)).set "cost_usd" (.num cp)).set "is_review"
            (.bool (decide (q < CONFIDENCE_AUTO)))])
          (hasLow || decide (q < CONFIDENCE_AUTO))) := by
    simp only [valLoop, hval, henr]
    rw [hc2, hq]
    simp
  constructor
  · intro hlow
    rw [hcq] at hlow ⊢
    rw [hstep, if_pos hlow]
  · intro hnl
    rw [hcq] at hnl ⊢
    refine ⟨(((((R'.set "pdf_filename" (.str fn)).set "ai_model" (.str mn)).set
      "prompt_version" (.str "v1")).set "tokens_used" (.num tok)).set
      "cost_usd" (.num cp)).set "is_review"
      (.bool (decide (q < CONFIDENCE_AUTO))), ?_, ?_⟩
    · rw [hstep, if_neg hnl]
    · rw [Record.set_other _ _ _ _ (by decide), Record.set_self]

theorem valLoop_manual (today : PyDate) (fn mn : String) (tok : Nat) (cp : ℚ) :
    ∀ (invs acc : List Record) (hasLow : Bool),
      (∀ inv ∈ invs, GoodRec today inv) →
      (∃ inv ∈ invs, confQ inv < CONFIDENCE_REVIEW) →
      ∃ em, valLoop today fn mn tok cp invs acc hasLow = .manualStop em := by
  intro invs
  induction invs with
  | nil => rintro acc hasLow _ ⟨inv, hmem, _⟩; simp at hmem
  | cons inv rest ih =>
      rintro acc hasLow hgood ⟨x, hx, hxlt⟩
      have hg := hgood inv (by simp)
      by_cases hq : confQ inv < CONFIDENCE_REVIEW
      · exact ⟨_, (valLoop_cons_good today fn mn tok cp inv rest acc hasLow hg).1 hq⟩
      · obtain ⟨inv3, hstep, _⟩ :=
          (valLoop_cons_good today fn mn tok cp inv rest acc hasLow hg).2 hq
        rw [hstep]
        have hxrest : x ∈ rest := by
          rcases List.mem_cons.mp hx with h | h
          · exact absurd (h ▸ hxlt) hq
          · exact h
        exact ih _ _ (fun i hi => hgood i (by simp [hi])) ⟨x, hxrest, hxlt⟩

theorem valLoop_done (today : PyDate) (fn mn : String) (tok : Nat) (cp : ℚ) :
    ∀ (invs acc : List Record) (hasLow : Bool),
      (∀ inv ∈ invs, GoodRec today inv) →
      (∀ inv ∈ invs, CONFIDENCE_REVIEW ≤ confQ inv) →
      ∃ recs, valLoop today fn mn tok cp invs acc hasLow =
          .done recs (hasLow || invs.any (fun inv => decide (confQ inv < CONFIDENCE_AUTO)))
        ∧ recs.length = acc.length + invs.length
        ∧ ∀ r ∈ recs, r ∈ acc ∨ r "cost_usd" = some (.num cp) := by
  intro invs
  induction invs with
  | nil =>
      intro acc hasLow _ _
      exact ⟨acc, by simp [valLoop], by simp, fun r hr => Or.inl hr⟩
  | cons inv rest ih =>
      intro acc hasLow hgood hfloor
      have hg := hgood inv (by simp)
      have hnl : ¬ confQ inv < CONFIDENCE_REVIEW :=
        not_lt.mpr (hfloor inv (by simp))
      obtain ⟨inv3, hstep, hcost⟩ :=
        (valLoop_cons_good today fn mn tok cp inv rest acc hasLow hg).2 hnl
      obtain ⟨recs, hrun, hlen, hprop⟩ :=
        ih (acc ++ [inv3]) (hasLow || decide (confQ inv < CONFIDENCE_AUTO))
          (fun i hi => hgood i (by simp [hi]))
          (fun i hi => hfloor i (by simp [hi]))
      refine ⟨recs, ?_, ?_, ?_⟩
      · rw [hstep, hrun]
        congr 1
        simp [List.any_cons, Bool.or_assoc]
      · rw [hlen]; simp; omega
      · intro r hr
        rcases hprop r hr with hacc | hcst
        · rcases List.mem_append.mp hacc with h | h
          · exact Or.inl h
          · rw [List.mem_singleton.mp h]
            exact Or.inr hcost
        · exact Or.inr hcst

theorem insertLoop_ok (f : Nat → Option String) (hf : ∀ i, f i = none) :
    ∀ (recs : List Record) (i : Nat) (s : Store),
      (insertLoop f i recs s).2 = none := by
  intro recs
  induction recs with
  | nil => intro i s; rfl
  | cons r rs ih =>
      intro i s
      simp only [insertLoop, hf i]
      exact ih (i + 1) _

/-! ### C1 -/

/-- C1: for a readable document whose extraction succeeded with at least
one candidate and whose candidates are all good (pass validation, string
date, coercible confidence), with no environmental failures: any candidate
below `CONFIDENCE_REVIEW` makes the document `"manual"` with no record
persisted; if all are at/above the floor, one below `CONFIDENCE_AUTO`
gives `"review"` and all at/above `CONFIDENCE_AUTO` give `"success"`. -/
theorem c1_confidence_thresholds (ora : Oracles) (today : PyDate) (name : String)
    (c : PDFContent) (ext : ExtractionResult) (store : Store) (log : Log)
    (hpages : ¬ c.total_pages = 0) (herr : ext.error = none)
    (hinv : ext.invoices ≠ [])
    (hgood : ∀ inv ∈ ext.invoices, GoodRec today inv)
    (hmm : ora.moveManualFail = none) (hins : ∀ i, ora.insertFail i = none)
    (hmc : ora.moveCheckedFail = none) :
    ((∃ inv ∈ ext.invoices, confQ inv < CONFIDENCE_REVIEW) →
      (processSingle ora today name (.ok c) ext store log).1.status = "manual" ∧
      (processSingle ora today name (.ok c) ext store log).2.1 = store)
    ∧ ((∀ inv ∈ ext.invoices, CONFIDENCE_REVIEW ≤ confQ inv) →
        ((∃ inv ∈ ext.invoices, confQ inv < CONFIDENCE_AUTO) →
          (processSingle ora today name (.ok c) ext store log).1.status = "review")
        ∧ ((∀ inv ∈ ext.invoices, CONFIDENCE_AUTO ≤ confQ inv) →
          (processSingle ora today name (.ok c) ext store log).1.status = "success")) := by
  have hie : ext.invoices.isEmpty = false := by
    cases hl : ext.invoices with
    | nil => exact absurd hl hinv
    | cons a l => rfl
  constructor
  · intro hex
    obtain ⟨em, hloop⟩ := valLoop_manual today name ext.model_used
      (ext.tokens_input + ext.tokens_output) (ext.cost_usd / ext.invoices.length)
      ext.invoices [] false hgood hex
    unfold processSingle
    dsimp only []
    rw [if_neg hpages, herr]
    dsimp only []
    rw [hie]
    simp only [Bool.false_eq_true, if_false]
    rw [hloop]
    simp [manualStopExit, hmm]
  · intro hfloor
    obtain ⟨recs, hloop, hlen, hprop⟩ := valLoop_done today name ext.model_used
      (ext.tokens_input + ext.tokens_output) (ext.cost_usd / ext.invoices.length)
      ext.invoices [] false hgood hfloor
    rw [Bool.false_or] at hloop
    have hil : insertLoop ora.insertFail 0 recs store =
        ((insertLoop ora.insertFail 0 recs store).1, none) := by
      have h2 := insertLoop_ok ora.insertFail hins recs 0 store
      cases hi : insertLoop ora.insertFail 0 recs store with
      | mk a b =>
          rw [hi] at h2
          dsimp only [] at h2
          rw [h2]
    constructor
    · intro hexa
      have hany : ext.invoices.any (fun inv => decide (confQ inv < CONFIDENCE_AUTO)) = true := by
        rcases hexa with ⟨x, hx, hxa⟩
        exact List.any_eq_true.mpr ⟨x, hx, decide_eq_true hxa⟩
      unfold processSingle
      dsimp only []
      rw [if_neg hpages, herr]
      dsimp only []
      rw [hie]
      simp only [Bool.false_eq_true, if_false]
      rw [hloop, hany]
      dsimp only []
      rw [hil]
      dsimp only []
      rw [hmc]
      dsimp only []
      simp
    · intro hauto
      have hany : ext.invoices.any (fun inv => decide (confQ inv < CONFIDENCE_AUTO)) = false := by
        rw [List.any_eq_false]
        intro x hx
        simp only [decide_eq_true_eq]
        exact not_lt.mpr (hauto x hx)
      unfold processSingle
      dsimp only []
      rw [if_neg hpages, herr]
      dsimp only []
      rw [hie]
      simp only [Bool.false_eq_true, if_false]
      rw [hloop, hany]
      dsimp only []
      rw [hil]
      dsimp only []
      rw [hmc]
      dsimp only []
      simp

/-- C1 witness: a document with candidates at confidence 0.3 and 0.9 ends
`"manual"` with the store untouched (and the other threshold branches hold
vacuously), instantiating every hypothesis of the theorem. -/
theorem c1_confidence_thresholds_wit :
    (∀ inv ∈ (sampleExt [sampleRec "A1" (mkRat 3 10), sampleRec "A2" (mkRat 9 10)]).invoices,
      GoodRec sampleToday inv) ∧
    ((∃ inv ∈ (sampleExt [sampleRec "A1" (mkRat 3 10), sampleRec "A2" (mkRat 9 10)]).invoices,
        confQ inv < CONFIDENCE_REVIEW) →
      (processSingle {} sampleToday "inv.pdf" (.ok sampleContent)
        (sampleExt [sampleRec "A1" (mkRat 3 10), sampleRec "A2" (mkRat 9 10)])
        [] []).1.status = "manual" ∧
      (processSingle {} sampleToday "inv.pdf" (.ok sampleContent)
        (sampleExt [sampleRec "A1" (mkRat 3 10), sampleRec "A2" (mkRat 9 10)])
        [] []).2.1 = []) ∧
    (∃ inv ∈ (sampleExt [sampleRec "A1" (mkRat 3 10), sampleRec "A2" (mkRat 9 10)]).invoices,
      confQ inv < CONFIDENCE_REVIEW) :=
  ⟨by decide,
    (c1_confidence_thresholds {} sampleToday "inv.pdf" sampleContent
      (sampleExt [sampleRec "A1" (mkRat 3 10), sampleRec "A2" (mkRat 9 10)]) [] []
      (by decide) rfl (by simp [sampleExt]) (by decide) rfl (fun i => rfl) rfl).1,
    ⟨sampleRec "A1" (mkRat 3 10), by simp [sampleExt], by decide⟩⟩

/-! ### C10 -/

theorem sum_map_const {α : Type} (l : List α) (f : α → ℚ) (x : ℚ)
    (h : ∀ a ∈ l, f a = x) : (l.map f).sum = l.length * x := by
  induction l with
  | nil => simp
  | cons a t ih =>
      rw [List.map_cons, List.sum_cons, h a (List.mem_cons_self a t),
        ih (fun b hb => h b (List.mem_cons_of_mem a hb)), List.length_cons]
      push_cast
      ring

/-- C10: when all candidates are good and at/above the floor (so the
document reaches persistence), each produced record carries cost
`cost_usd / n` where `n` is the candidate count, the record count equals
`n`, and the attributed costs sum exactly to the document's extraction
cost (exact rational arithmetic). -/
theorem c10_cost_attribution (ora : Oracles) (today : PyDate) (name : String)
    (c : PDFContent) (ext : ExtractionResult) (store : Store) (log : Log)
    (hpages : ¬ c.total_pages = 0) (herr : ext.error = none)
    (hinv : ext.invoices ≠ [])
    (hgood : ∀ inv ∈ ext.invoices, GoodRec today inv)
    (hfloor : ∀ inv ∈ ext.invoices, CONFIDENCE_REVIEW ≤ confQ inv)
    (hmm : ora.moveManualFail = none) (hins : ∀ i, ora.insertFail i = none)
    (hmc : ora.moveCheckedFail = none) :
    (processSingle ora today name (.ok c) ext store log).1.records.length =
      ext.invoices.length ∧
    (∀ r ∈ (processSingle ora today name (.ok c) ext store log).1.records,
      r "cost_usd" = some (.num (ext.cost_usd / ext.invoices.length))) ∧
    ((processSingle ora today name (.ok c) ext store log).1.records.map
      (fun r => match r "cost_usd" with | some (.num q) => q | _ => 0)).sum =
      ext.cost_usd := by
  have hie : ext.invoices.isEmpty = false := by
    cases hl : ext.invoices with
    | nil => exact absurd hl hinv
    | cons a l => rfl
  obtain ⟨recs, hloop, hlen, hprop⟩ := valLoop_done today name ext.model_used
    (ext.tokens_input + ext.tokens_output) (ext.cost_usd / ext.invoices.length)
    ext.invoices [] false hgood hfloor
  rw [Bool.false_or] at hloop
  have hil : insertLoop ora.insertFail 0 recs store =
      ((insertLoop ora.insertFail 0 recs store).1, none) := by
    have h2 := insertLoop_ok ora.insertFail hins recs 0 store
    cases hi : insertLoop ora.insertFail 0 recs store with
    | mk a b =>
        rw [hi] at h2
        dsimp only [] at h2
        rw [h2]
  have hcost : ∀ r ∈ recs, r "cost_usd" = some (.num (ext.cost_usd / ext.invoices.length)) := by
    intro r hr
    rcases hprop r hr with h0 | h0
    · simp at h0
    · exact h0
  have hrecs : (processSingle ora today name (.ok c) ext store log).1.records = recs := by
    unfold processSingle
    dsimp only []
    rw [if_neg hpages, herr]
    dsimp only []
    rw [hie]
    simp only [Bool.false_eq_true, if_false]
    rw [hloop]
    dsimp only []
    rw [hil]
    dsimp only []
    rw [hmc]
  rw [hrecs]
  have hn : (ext.invoices.length : ℚ) ≠ 0 := by
    have h0 : ext.invoices.length ≠ 0 := by
      cases hl : ext.invoices with
      | nil => exact absurd hl hinv
      | cons a l => simp
    exact_mod_cast Nat.cast_ne_zero.mpr h0
  refine ⟨by rw [hlen]; simp, hcost, ?_⟩
  rw [sum_map_const recs _ (ext.cost_usd / ext.invoices.length)
    (fun r hr => by rw [hcost r hr])]
  rw [hlen]
  simp only [List.length_nil, Nat.zero_add]
  rw [mul_comm, div_mul_cancel₀ _ hn]

/-- C10 witness: two good records at 0.9 each get cost `(1/10)/2 = 1/20`,
two records are produced, and the costs sum back to `1/10`. -/
theorem c10_cost_attribution_wit :
    (∀ inv ∈ (sampleExt [sampleRec "A1" (mkRat 9 10), sampleRec "A2" (mkRat 9 10)]).invoices,
      GoodRec sampleToday inv) ∧
    (processSingle {} sampleToday "inv.pdf" (.ok sampleContent)
      (sampleExt [sampleRec "A1" (mkRat 9 10), sampleRec "A2" (mkRat 9 10)])
      [] []).1.records.length =
        (sampleExt [sampleRec "A1" (mkRat 9 10), sampleRec "A2" (mkRat 9 10)]).invoices.length ∧
    ((processSingle {} sampleToday "inv.pdf" (.ok sampleContent)
      (sampleExt [sampleRec "A1" (mkRat 9 10), sampleRec "A2" (mkRat 9 10)])
      [] []).1.records.map
        (fun r => match r "cost_usd" with | some (.num q) => q | _ => 0)).sum =
      (sampleExt [sampleRec "A1" (mkRat 9 10), sampleRec "A2" (mkRat 9 10)]).cost_usd :=
  ⟨by decide,
    (c10_cost_attribution {} sampleToday "inv.pdf" sampleContent
      (sampleExt [sampleRec "A1" (mkRat 9 10), sampleRec "A2" (mkRat 9 10)]) [] []
      (by decide) rfl (by simp [sampleExt]) (by decide) (by decide) rfl (fun i => rfl) rfl).1,
    (c10_cost_attribution {} sampleToday "inv.pdf" sampleContent
      (sampleExt [sampleRec "A1" (mkRat 9 10), sampleRec "A2" (mkRat 9 10)]) [] []
      (by decide) rfl (by simp [sampleExt]) (by decide) (by decide) rfl (fun i => rfl) rfl).2.2⟩

end RepairBot
